import Mathlib

/-!
Shallow embedding of the arboribus pattern-resolution and path-reconciliation
engine (`src/arboribus/core.py`, with the `process_path` variant from
`src/arboribus/cli.py`), together with theorems settling the spec claims.

Paths are modelled as lists of components; the filesystem is an association
list from paths to entries plus oracles for the OS-level failure modes the
code catches (unreadable files, mkdir/copy/rmtree/copytree errors).  The
checksum function is kept abstract (a field of the filesystem model), since
only determinism of the digest matters to the code under study.  Subprocess
and glob results are environment oracles, matching the spec's treatment of
them as external collaborators.
-/

namespace Arboribus

/-- A filesystem path as its list of components (embedding of
`pathlib.Path`); the filesystem root is the empty list. -/
abbrev PyPath := List String

/-- A directory entry: a regular file with its content, or a directory. -/
inductive Entry where
  | file (content : String)
  | dir
deriving DecidableEq, Repr

/-- The filesystem model: an association list of entries plus failure
oracles for the OS errors the Python code catches, and the abstract content
digest used by `get_file_checksum`. -/
structure FS where
  entries : List (PyPath × Entry)
  hash : String → String
  readFails : PyPath → Bool
  mkdirFails : PyPath → Bool
  copyFails : PyPath → Bool
  rmtreeFails : PyPath → Bool
  copytreeFails : PyPath → Bool

/-- Look up the entry at a path (first match wins). -/
def FS.lookup (fs : FS) (p : PyPath) : Option Entry :=
  (fs.entries.find? (fun kv => kv.1 == p)).map (fun kv => kv.2)

/-- Embedding of `Path.exists()`. -/
def FS.existsP (fs : FS) (p : PyPath) : Bool :=
  (fs.lookup p).isSome

/-- Embedding of `Path.is_file()`. -/
def FS.isFile (fs : FS) (p : PyPath) : Bool :=
  match fs.lookup p with
  | some (.file _) => true
  | _ => false

/-- Embedding of `Path.is_dir()`. -/
def FS.isDir (fs : FS) (p : PyPath) : Bool :=
  match fs.lookup p with
  | some .dir => true
  | _ => false

/-- Write an entry at a path, replacing any previous entry there
(the effect of `shutil.copy2` on the destination). -/
def FS.setEntry (fs : FS) (p : PyPath) (e : Entry) : FS :=
  { fs with entries := (p, e) :: fs.entries.filter (fun kv => !(kv.1 == p)) }

/-- Remove a path and everything below it (`shutil.rmtree`). -/
def FS.removeTree (fs : FS) (p : PyPath) : FS :=
  { fs with entries := fs.entries.filter (fun kv => !(p.isPrefixOf kv.1)) }

/-- The proper ancestors of a path, shortest first. -/
def properAncestors (p : PyPath) : List PyPath :=
  (List.range (p.length - 1)).map (fun i => p.take (i + 1))

/-- Effect of `target.parent.mkdir(parents=True, exist_ok=True)`: create
every missing ancestor directory of the path. -/
def FS.mkdirAncestors (fs : FS) (p : PyPath) : FS :=
  (properAncestors p).foldl (fun acc q => if acc.existsP q then acc else acc.setEntry q .dir) fs

/-- Split a character list at every occurrence of a separator character,
accumulating the current piece in reverse. -/
def splitCharAux (c : Char) : List Char → List Char → List String
  | [], acc => [String.mk acc.reverse]
  | d :: ds, acc =>
    if d == c then String.mk acc.reverse :: splitCharAux c ds []
    else splitCharAux c ds (d :: acc)

/-- Split a string at every occurrence of a character (the semantics of
`str.split(sep)` with a one-character separator). -/
def splitOnChar (c : Char) (s : String) : List String :=
  splitCharAux c s.data []

/-- Strip surrounding whitespace (the semantics of `str.strip()`). -/
def stripStr (s : String) : String :=
  String.mk ((s.data.dropWhile Char.isWhitespace).reverse.dropWhile Char.isWhitespace).reverse

/-- Boolean string-prefix test (the semantics of `str.startswith`). -/
def strPre (p s : String) : Bool :=
  p.data.isPrefixOf s.data

/-- Embedding of `str(path.relative_to(sourceDir))` for a path below the
source root: join the components after the root with slashes. -/
def relStr (sourceDir p : PyPath) : String :=
  String.intercalate "/" (p.drop sourceDir.length)

/-- Outcome of the two subprocess calls `get_git_tracked_files` makes:
`none` models the invocation raising, `some (rc, stdout)` a completed call. -/
structure GitEnv where
  revParse : Option (Int × String)
  lsFiles : Option (Int × String)

/-- Embedding of `core.get_git_tracked_files`: verify the work tree, list
tracked files, and return the set (modelled as a deduplicated list) of
stripped nonempty output lines; any failure yields `none`. -/
def get_git_tracked_files (env : GitEnv) : Option (List String) :=
  match env.revParse with
  | none => none
  | some (rc, _) =>
    if rc != 0 then none
    else
      match env.lsFiles with
      | none => none
      | some (rc2, out) =>
        if rc2 != 0 then none
        else
          some (((splitOnChar '\n' out).filterMap
            (fun line => if stripStr line == "" then none else some (stripStr line))).dedup)

/-- Embedding of `core.get_file_checksum`: digest of the file content, or
`none` when the path is not a readable regular file. -/
def get_file_checksum (fs : FS) (p : PyPath) : Option String :=
  match fs.lookup p with
  | some (.file c) => if fs.readFails p then none else some (fs.hash c)
  | _ => none

/-- Embedding of `core.is_same_file_content`. -/
def is_same_file_content (fs : FS) (sourcePath targetPath : PyPath) : Bool :=
  if !(fs.existsP sourcePath) || !(fs.existsP targetPath) then false
  else
    match get_file_checksum fs sourcePath, get_file_checksum fs targetPath with
    | some sc, some tc => sc == tc
    | _, _ => false

/-- Embedding of the `has_tracked_files` test used for directory candidates:
some tracked entry starts with the relative path plus a slash, or equals it. -/
def hasTrackedFiles (git : List String) (rel : String) : Bool :=
  git.any (fun t => strPre (rel ++ "/") t || t == rel)

/-- Git filtering applied to a resolver candidate, from `resolve_patterns`:
files must be tracked, directories must contain a tracked entry. -/
def gitFilterOk (fs : FS) (git : Option (List String)) (sourceDir p : PyPath) : Bool :=
  match git with
  | none => true
  | some g =>
    if fs.isFile p then g.contains (relStr sourceDir p)
    else if fs.isDir p then hasTrackedFiles g (relStr sourceDir p)
    else true

/-- Exclude filtering from `resolve_patterns`: dropped when the relative
path starts with any exclude pattern. -/
def excludedBy (exclude : List String) (rel : String) : Bool :=
  exclude.any (fun f => strPre f rel)

/-- Results of the two `glob.glob` invocations `resolve_patterns` makes,
kept abstract as an environment oracle keyed by the pattern. -/
structure GlobEnv where
  glob : String → List PyPath
  globRecursive : String → List PyPath

/-- The candidate list produced by glob expansion of one pattern: the plain
expansion, extended by the recursive expansion when the pattern has a star. -/
def globCandidates (env : GlobEnv) (pattern : String) : List PyPath :=
  env.glob pattern ++ (if pattern.data.contains '*' then env.globRecursive pattern else [])

/-- Embedding of `source_dir / pattern`. -/
def directPath (sourceDir : PyPath) (pattern : String) : PyPath :=
  sourceDir ++ splitOnChar '/' pattern

/-- Type gate from `resolve_patterns`: directories always qualify, files
only when `include_files` is set. -/
def typeOk (fs : FS) (includeFiles : Bool) (p : PyPath) : Bool :=
  fs.isDir p || (includeFiles && fs.isFile p)

/-- The filter applied to each glob candidate in `resolve_patterns`. -/
def candidateKept (fs : FS) (sourceDir : PyPath) (exclude : List String)
    (git : Option (List String)) (includeFiles : Bool) (p : PyPath) : Bool :=
  typeOk fs includeFiles p &&
  gitFilterOk fs git sourceDir p &&
  !(excludedBy exclude (relStr sourceDir p))

/-- One iteration of the pattern loop in `resolve_patterns`: a direct match
that passes the type gate short-circuits glob expansion (its filter failures
skip the pattern entirely); otherwise the glob candidates are filtered. -/
def resolveOnePattern (fs : FS) (env : GlobEnv) (sourceDir : PyPath)
    (exclude : List String) (git : Option (List String)) (includeFiles : Bool)
    (pattern : String) : List PyPath :=
  let dp := directPath sourceDir pattern
  if fs.existsP dp && typeOk fs includeFiles dp then
    if gitFilterOk fs git sourceDir dp && !(excludedBy exclude (relStr sourceDir dp))
    then [dp] else []
  else
    (globCandidates env pattern).filter (candidateKept fs sourceDir exclude git includeFiles)

/-- Boolean form of the lexicographic order on component paths, used for
the final `sorted(...)`. -/
def pathLe (a b : PyPath) : Bool :=
  decide (a ≤ b)

/-- Embedding of `core.resolve_patterns`: the per-pattern matches,
deduplicated and sorted (`sorted(set(matched_paths))`). -/
def resolve_patterns (fs : FS) (env : GlobEnv) (sourceDir : PyPath)
    (patterns : List String) (exclude : List String)
    (git : Option (List String)) (includeFiles : Bool) : List PyPath :=
  ((patterns.flatMap (resolveOnePattern fs env sourceDir exclude git includeFiles)).dedup).mergeSort pathLe

/-- The items `directory.rglob("*")` yields: every entry strictly below the
directory, in filesystem listing order. -/
def rglobItems (fs : FS) (directory : PyPath) : List (PyPath × Entry) :=
  fs.entries.filter (fun kv => directory.isPrefixOf kv.1 && decide (directory.length < kv.1.length))

/-- The loop body of `collect_files_recursive`: keep a regular file unless a
tracked set is present and its root-relative path is untracked. -/
def collectStep (sourceDir : PyPath) (git : Option (List String))
    (kv : PyPath × Entry) : Option PyPath :=
  match kv.2 with
  | .file _ =>
    match git with
    | some g => if !(g.contains (relStr sourceDir kv.1)) then none else some kv.1
    | none => some kv.1
  | .dir => none

/-- Embedding of `core.collect_files_recursive`.  The walk may raise a
permission or OS error after some number of items; `failAfter = some k`
models that, `none` an error-free walk.  The error is caught, so the files
collected before it are returned. -/
def collect_files_recursive (fs : FS) (failAfter : Option Nat)
    (directory sourceDir : PyPath) (git : Option (List String)) : List PyPath :=
  let walk := match failAfter with
    | none => rglobItems fs directory
    | some k => (rglobItems fs directory).take k
  walk.filterMap (collectStep sourceDir git)

/-- The tracked-set gate of `process_file_sync`: filtered out when a set is
present and the file's relative path is not in it. -/
def fileGitFiltered (git : Option (List String)) (rel : String) : Bool :=
  match git with
  | some g => !(g.contains rel)
  | none => false

/-- Complement of `fileGitFiltered`: the file passes the tracked-set gate. -/
def fileGitPass (git : Option (List String)) (rel : String) : Bool :=
  match git with
  | some g => g.contains rel
  | none => true

/-- The tracked-set gate of `process_directory_sync`: filtered out when a set
is present and the directory holds no tracked entry. -/
def dirGitFiltered (git : Option (List String)) (rel : String) : Bool :=
  match git with
  | some g => !(hasTrackedFiles g rel)
  | none => false

/-- The distinct outcome messages of the reconciliation functions
(embedding of the message strings, without the path prefixes). -/
inductive Msg where
  | filteredOutFile
  | sameSkipped
  | existsSkipped
  | wouldReplace
  | wouldCopy
  | mkdirError
  | copied
  | replaced
  | copyError
  | filteredOutDir
  | wouldSyncDir
  | rmtreeError
  | syncedDir
  | syncError
  | notAFileOrDir
deriving DecidableEq, Repr

/-- Filesystem mutation events, used to state frame conditions. -/
inductive Ev where
  | mkdirAncestors (p : PyPath)
  | copyFile (s t : PyPath)
  | rmtree (p : PyPath)
  | copytree (s t : PyPath)
deriving DecidableEq, Repr

/-- Result of a reconciliation call: the returned pair plus the final
filesystem and the mutation events performed. -/
structure SyncOut where
  processed : Bool
  msg : Msg
  fs : FS
  evs : List Ev

/-- Embedding of `core.process_file_sync`. -/
def process_file_sync (fs : FS) (sourcePath targetPath sourceDir : PyPath)
    (git : Option (List String)) (dry replaceExisting : Bool) : SyncOut :=
  let rel := relStr sourceDir sourcePath
  if fileGitFiltered git rel then ⟨false, .filteredOutFile, fs, []⟩
  else if fs.existsP targetPath && !replaceExisting then
    if is_same_file_content fs sourcePath targetPath then ⟨false, .sameSkipped, fs, []⟩
    else ⟨false, .existsSkipped, fs, []⟩
  else if fs.existsP targetPath && replaceExisting && dry then
    ⟨true, .wouldReplace, fs, []⟩
  else if dry then ⟨true, .wouldCopy, fs, []⟩
  else if fs.mkdirFails targetPath.dropLast then ⟨false, .mkdirError, fs, []⟩
  else
    let fs1 := fs.mkdirAncestors targetPath
    match fs1.lookup sourcePath, fs1.copyFails targetPath with
    | some (.file c), false =>
      let fs2 := fs1.setEntry targetPath (.file c)
      if fs2.existsP targetPath && replaceExisting then
        ⟨true, .replaced, fs2, [Ev.mkdirAncestors targetPath, Ev.copyFile sourcePath targetPath]⟩
      else
        ⟨true, .copied, fs2, [Ev.mkdirAncestors targetPath, Ev.copyFile sourcePath targetPath]⟩
    | _, _ => ⟨false, .copyError, fs1, [Ev.mkdirAncestors targetPath]⟩

/-- The subtree strictly below a source directory, as pairs of the path
relative to it (component list) and the entry. -/
def subtreeRests (fs : FS) (src : PyPath) : List (PyPath × Entry) :=
  fs.entries.filterMap (fun kv =>
    if src.isPrefixOf kv.1 && decide (src.length < kv.1.length)
    then some (kv.1.drop src.length, kv.2) else none)

/-- Denotation of `shutil.copytree(src, tgt, ignore)` on the model: an entry
below `src` is copied to the corresponding path below `tgt` unless the ignore
callback ignores it or one of its ancestors (copytree prunes an ignored name
together with its whole subtree); the destination directory itself is
created. -/
def copytreeFS (fs : FS) (src tgt : PyPath) (ignore : PyPath → Bool) : FS :=
  let copied := (subtreeRests fs src).filterMap (fun re =>
    if (List.range re.1.length).all (fun i => !(ignore (src ++ re.1.take (i + 1))))
    then some (tgt ++ re.1, re.2) else none)
  { fs with entries := copied ++ (fs.setEntry tgt .dir).entries }

/-- The ignore callback `process_directory_sync` passes to copytree: with a
tracked set present, a path below the source root whose relative path is not
tracked is ignored. -/
def procDirIgnore (git : Option (List String)) (sourceDir : PyPath) (fp : PyPath) : Bool :=
  match git with
  | none => false
  | some g => sourceDir.isPrefixOf fp && !(g.contains (relStr sourceDir fp))

/-- Embedding of `core.process_directory_sync`. -/
def process_directory_sync (fs : FS) (sourcePath targetPath sourceDir : PyPath)
    (git : Option (List String)) (dry replaceExisting : Bool) : SyncOut :=
  let rel := relStr sourceDir sourcePath
  if dirGitFiltered git rel then ⟨false, .filteredOutDir, fs, []⟩
  else if dry then ⟨true, .wouldSyncDir, fs, []⟩
  else if fs.existsP targetPath && replaceExisting && fs.rmtreeFails targetPath then
    ⟨false, .rmtreeError, fs, []⟩
  else
    let replacing := fs.existsP targetPath && replaceExisting
    let fs1 := if replacing then fs.removeTree targetPath else fs
    let evs1 := if replacing then [Ev.rmtree targetPath] else []
    if fs1.existsP targetPath && !replaceExisting then
      ⟨false, .syncError, fs1, evs1⟩
    else if fs1.copytreeFails targetPath then
      ⟨false, .syncError, fs1, evs1⟩
    else
      ⟨true, .syncedDir, copytreeFS fs1 sourcePath targetPath (procDirIgnore git sourceDir),
        evs1 ++ [Ev.copytree sourcePath targetPath]⟩

/-- Embedding of `core.process_path`: dispatch on the source's kind. -/
def process_path (fs : FS) (sourcePath targetPath sourceDir : PyPath)
    (git : Option (List String)) (dry replaceExisting : Bool) : SyncOut :=
  if fs.isFile sourcePath then
    process_file_sync fs sourcePath targetPath sourceDir git dry replaceExisting
  else if fs.isDir sourcePath then
    process_directory_sync fs sourcePath targetPath sourceDir git dry replaceExisting
  else
    ⟨false, .notAFileOrDir, fs, []⟩

/-- Embedding of `cli.get_file_checksum`: the digest, or the empty string on
any read failure. -/
def cli_get_file_checksum (fs : FS) (p : PyPath) : String :=
  match fs.lookup p with
  | some (.file c) => if fs.readFails p then "" else fs.hash c
  | _ => ""

/-- Embedding of `cli.process_path`.  This variant returns only the boolean;
`none` models an exception propagating out of its unguarded mkdir, copy or
rmtree calls. -/
def cli_process_path (fs : FS) (sourcePath targetPath sourceDir : PyPath)
    (git : Option (List String)) (dry replaceExisting : Bool) :
    Option (Bool × FS × List Ev) :=
  let rel := relStr sourceDir sourcePath
  let gitFiltered := match git with
    | none => false
    | some g =>
      if fs.isFile sourcePath then !(g.contains rel)
      else if fs.isDir sourcePath then !(hasTrackedFiles g rel)
      else false
  if gitFiltered then some (false, fs, [])
  else
    let checksumSkip :=
      fs.existsP targetPath && fs.isFile sourcePath && fs.isFile targetPath &&
        (let sc := cli_get_file_checksum fs sourcePath
         let tc := cli_get_file_checksum fs targetPath
         !(sc == "") && !(tc == "") && sc == tc)
    if checksumSkip then some (false, fs, [])
    else if fs.existsP targetPath && fs.isFile sourcePath && !replaceExisting then
      some (false, fs, [])
    else if fs.isFile sourcePath then
      if dry then some (true, fs, [])
      else if fs.mkdirFails targetPath.dropLast then none
      else
        let fs1 := fs.mkdirAncestors targetPath
        match fs1.lookup sourcePath, fs1.copyFails targetPath with
        | some (.file c), false =>
          some (true, fs1.setEntry targetPath (.file c),
            [Ev.mkdirAncestors targetPath, Ev.copyFile sourcePath targetPath])
        | _, _ => none
    else if fs.isDir sourcePath then
      if dry then some (true, fs, [])
      else if fs.existsP targetPath && replaceExisting && fs.rmtreeFails targetPath then none
      else
        let replacing := fs.existsP targetPath && replaceExisting
        let fs1 := if replacing then fs.removeTree targetPath else fs
        let evs1 := if replacing then [Ev.rmtree targetPath] else []
        if fs1.existsP targetPath && !replaceExisting then some (false, fs1, evs1)
        else if fs1.copytreeFails targetPath then some (false, fs1, evs1)
        else
          some (true, copytreeFS fs1 sourcePath targetPath (procDirIgnore git sourceDir),
            evs1 ++ [Ev.copytree sourcePath targetPath])
    else some (true, fs, [])

/-- The climb `sync_directory`'s ignore callback performs to find the
monorepo root: the nearest ancestor (starting at the path itself) holding an
`arboribus.toml`, or the filesystem root. -/
def findSourceRoot (fs : FS) (p : PyPath) : PyPath :=
  if p = [] then []
  else if fs.existsP (p ++ ["arboribus.toml"]) then p
  else findSourceRoot fs p.dropLast
termination_by p.length
decreasing_by
  cases p with
  | nil => simp_all
  | cons a l => simp [List.length_dropLast]

/-- The ignore callback `sync_directory` passes to copytree. -/
def syncDirIgnore (fs : FS) (git : Option (List String)) (source : PyPath)
    (fp : PyPath) : Bool :=
  match git with
  | none => false
  | some g =>
    let root := findSourceRoot fs source
    root.isPrefixOf fp && !(g.contains (relStr root fp))

/-- Embedding of `core.sync_directory`: swap on reverse, no-op on dry,
unconditionally remove an existing target, then copytree.  `none` models the
unguarded rmtree or re-raised copytree exception propagating. -/
def sync_directory (fs : FS) (source target : PyPath) (reverse dry : Bool)
    (git : Option (List String)) : Option (FS × List Ev) :=
  let src := if reverse then target else source
  let tgt := if reverse then source else target
  if dry then some (fs, [])
  else if fs.existsP tgt && fs.rmtreeFails tgt then none
  else
    let fs1 := if fs.existsP tgt then fs.removeTree tgt else fs
    let evs1 := if fs.existsP tgt then [Ev.rmtree tgt] else []
    if fs1.copytreeFails tgt then none
    else
      some (copytreeFS fs1 src tgt (syncDirIgnore fs1 git src),
        evs1 ++ [Ev.copytree src tgt])

/-- Oracle that never fails, for concrete instantiations. -/
def noFailOracle : PyPath → Bool := fun _ => false

/-- A concrete digest function for concrete instantiations. -/
def sampleHash : String → String := fun s => "h" ++ s

/-- Build a concrete failure-free filesystem from an entry list. -/
def mkFS (entries : List (PyPath × Entry)) : FS :=
  { entries := entries, hash := sampleHash, readFails := noFailOracle,
    mkdirFails := noFailOracle, copyFails := noFailOracle,
    rmtreeFails := noFailOracle, copytreeFails := noFailOracle }

/-- C2: when a tracked set is supplied and the source file's root-relative
path is not a member, `process_file_sync` returns `was_processed = false`
with the filtered-out message, regardless of target state, `dry` and
`replace_existing`, and performs no filesystem mutation. -/
theorem c2_tracked_set_exclusivity (fs : FS) (sp tp sd : PyPath) (g : List String)
    (dry repl : Bool) (h : g.contains (relStr sd sp) = false) :
    (process_file_sync fs sp tp sd (some g) dry repl).processed = false
    ∧ (process_file_sync fs sp tp sd (some g) dry repl).msg = Msg.filteredOutFile
    ∧ (process_file_sync fs sp tp sd (some g) dry repl).fs = fs
    ∧ (process_file_sync fs sp tp sd (some g) dry repl).evs = [] := by
  have h' : relStr sd sp ∉ g := by simpa using h
  simp [process_file_sync, fileGitFiltered, h']

/-- A small concrete filesystem: a source root holding one file. -/
def fsC2 : FS := mkFS [(["r"], .dir), (["r", "a.txt"], .file "X")]

/-- Witness for C2: the untracked file is filtered out on a concrete
filesystem. -/
theorem c2_tracked_set_exclusivity_witness :
    (["b.txt"] : List String).contains (relStr ["r"] ["r", "a.txt"]) = false
    ∧ ((process_file_sync fsC2 ["r", "a.txt"] ["t", "a.txt"] ["r"] (some ["b.txt"]) false true).processed = false
      ∧ (process_file_sync fsC2 ["r", "a.txt"] ["t", "a.txt"] ["r"] (some ["b.txt"]) false true).msg = Msg.filteredOutFile
      ∧ (process_file_sync fsC2 ["r", "a.txt"] ["t", "a.txt"] ["r"] (some ["b.txt"]) false true).fs = fsC2
      ∧ (process_file_sync fsC2 ["r", "a.txt"] ["t", "a.txt"] ["r"] (some ["b.txt"]) false true).evs = []) :=
  ⟨by decide, c2_tracked_set_exclusivity fsC2 ["r", "a.txt"] ["t", "a.txt"] ["r"] ["b.txt"]
    false true (by decide)⟩

/-- C7: the content-identity check is `false` when either path is missing,
and otherwise `true` exactly when both checksum computations succeed with
equal digests; a read failure on either side forces `false`. -/
theorem c7_same_content_contract (fs : FS) (a b : PyPath) :
    ((fs.existsP a = false ∨ fs.existsP b = false) → is_same_file_content fs a b = false)
    ∧ (is_same_file_content fs a b = true ↔
        (fs.existsP a = true ∧ fs.existsP b = true ∧
          ∃ d, get_file_checksum fs a = some d ∧ get_file_checksum fs b = some d))
    ∧ (fs.readFails a = true → is_same_file_content fs a b = false)
    ∧ (fs.readFails b = true → is_same_file_content fs a b = false) := by
  have hnone : ∀ p : PyPath, fs.readFails p = true → get_file_checksum fs p = none := by
    intro p hp
    unfold get_file_checksum
    cases hl : fs.lookup p with
    | none => rfl
    | some e => cases e <;> simp [hp]
  refine ⟨?_, ?_, ?_, ?_⟩
  · intro h
    rcases h with h | h <;> simp [is_same_file_content, h]
  · unfold is_same_file_content
    by_cases ha : fs.existsP a
    · by_cases hb : fs.existsP b
      · simp only [ha, hb, Bool.not_true, Bool.false_or, Bool.or_self, if_false]
        cases hca : get_file_checksum fs a with
        | none => simp [ha, hb, hca]
        | some x =>
          cases hcb : get_file_checksum fs b with
          | none => simp [ha, hb, hca, hcb]
          | some y =>
            constructor
            · intro h
              have hxy : x = y := by simpa using h
              exact ⟨trivial, trivial, x, rfl, by rw [hxy]⟩
            · rintro ⟨-, -, d, hd1, hd2⟩
              cases hd1
              simpa using (Option.some.inj hd2).symm
      · simp [ha, hb]
    · simp [ha]
  · intro hr
    by_cases ha : fs.existsP a
    · by_cases hb : fs.existsP b
      · simp [is_same_file_content, ha, hb, hnone a hr]
      · simp [is_same_file_content, hb]
    · simp [is_same_file_content, ha]
  · intro hr
    by_cases ha : fs.existsP a
    · by_cases hb : fs.existsP b
      · simp [is_same_file_content, ha, hb, hnone b hr]
      · simp [is_same_file_content, hb]
    · simp [is_same_file_content, ha]

/-- A filesystem with two identical files and one divergent file. -/
def fsC7 : FS := mkFS [(["r", "a.txt"], .file "X"), (["t", "a.txt"], .file "X"),
  (["t", "b.txt"], .file "Y")]

/-- Witness for C7: concrete evaluation of the identity check on existing
files. -/
theorem c7_same_content_contract_witness :
    ((fsC7.existsP ["missing"] = false ∨ fsC7.existsP ["t", "a.txt"] = false) →
      is_same_file_content fsC7 ["missing"] ["t", "a.txt"] = false)
    ∧ (is_same_file_content fsC7 ["missing"] ["t", "a.txt"] = true ↔
        (fsC7.existsP ["missing"] = true ∧ fsC7.existsP ["t", "a.txt"] = true ∧
          ∃ d, get_file_checksum fsC7 ["missing"] = some d
            ∧ get_file_checksum fsC7 ["t", "a.txt"] = some d))
    ∧ (fsC7.readFails ["missing"] = true →
        is_same_file_content fsC7 ["missing"] ["t", "a.txt"] = false)
    ∧ (fsC7.readFails ["t", "a.txt"] = true →
        is_same_file_content fsC7 ["missing"] ["t", "a.txt"] = false) :=
  c7_same_content_contract fsC7 ["missing"] ["t", "a.txt"]

/-- C6: the tracked-set provider is total; it yields `none` on an exception
or a non-zero exit of either subprocess step, and on success the set of
stripped nonempty output lines — so empty output yields the empty set, which
is not `none`. -/
theorem c6_git_provider_contract (env : GitEnv) :
    (env.revParse = none → get_git_tracked_files env = none)
    ∧ (∀ rc out, env.revParse = some (rc, out) → rc ≠ 0 → get_git_tracked_files env = none)
    ∧ (∀ out, env.revParse = some (0, out) → env.lsFiles = none →
        get_git_tracked_files env = none)
    ∧ (∀ out rc2 out2, env.revParse = some (0, out) → env.lsFiles = some (rc2, out2) →
        rc2 ≠ 0 → get_git_tracked_files env = none)
    ∧ (∀ out out2 l, env.revParse = some (0, out) → env.lsFiles = some (0, out2) →
        get_git_tracked_files env = some l →
        ∀ x, x ∈ l ↔ (x ≠ "" ∧ ∃ line ∈ splitOnChar '\n' out2, stripStr line = x))
    ∧ (∀ out, env.revParse = some (0, out) → env.lsFiles = some (0, "") →
        get_git_tracked_files env = some [] ∧ get_git_tracked_files env ≠ none) := by
  refine ⟨?_, ?_, ?_, ?_, ?_, ?_⟩
  · intro h; simp [get_git_tracked_files, h]
  · intro rc out h hrc; simp [get_git_tracked_files, h, hrc]
  · intro out h1 h2; simp [get_git_tracked_files, h1, h2]
  · intro out rc2 out2 h1 h2 hrc; simp [get_git_tracked_files, h1, h2, hrc]
  · intro out out2 l h1 h2 hl x
    rw [show l = ((splitOnChar '\n' out2).filterMap
        (fun line => if stripStr line == "" then none else some (stripStr line))).dedup by
      simpa [get_git_tracked_files, h1, h2] using hl.symm]
    rw [List.mem_dedup, List.mem_filterMap]
    constructor
    · rintro ⟨line, hmem, hline⟩
      by_cases he : stripStr line = ""
      · simp [he] at hline
      · simp only [beq_iff_eq, he, if_false, Option.some.injEq] at hline
        exact ⟨hline ▸ he, line, hmem, hline⟩
    · rintro ⟨hne, line, hmem, hline⟩
      refine ⟨line, hmem, ?_⟩
      have he : ¬(stripStr line = "") := by rw [hline]; exact hne
      rw [if_neg (by simpa using he), hline]
  · intro out h1 h2
    refine ⟨?_, ?_⟩
    · simp [get_git_tracked_files, h1, h2]
      decide
    · simp [get_git_tracked_files, h1, h2]

/-- C9: the recursive file collector returns only regular files, respects
the tracked set, and when the walk raises after `k` items it still returns
what was collected up to that point (a prefix of the error-free result)
rather than propagating. -/
theorem c9_collector_contract (fs : FS) (k : Nat) (directory sourceDir : PyPath)
    (git : Option (List String)) (failAfter : Option Nat) :
    (∀ p ∈ collect_files_recursive fs failAfter directory sourceDir git,
      ∃ c, (p, Entry.file c) ∈ fs.entries)
    ∧ (∀ g, git = some g → ∀ p ∈ collect_files_recursive fs failAfter directory sourceDir git,
        g.contains (relStr sourceDir p) = true)
    ∧ (collect_files_recursive fs (some k) directory sourceDir git
        <+: collect_files_recursive fs none directory sourceDir git) := by
  have hwalk : ∀ kv : PyPath × Entry, kv ∈ (match failAfter with
      | none => rglobItems fs directory
      | some k => (rglobItems fs directory).take k) → kv ∈ fs.entries := by
    intro kv hkv
    have h1 : kv ∈ rglobItems fs directory := by
      cases failAfter with
      | none => exact hkv
      | some j => exact List.take_subset j _ hkv
    exact List.mem_of_mem_filter h1
  have hmain : ∀ p ∈ collect_files_recursive fs failAfter directory sourceDir git,
      (∃ c, (p, Entry.file c) ∈ fs.entries)
      ∧ ∀ g, git = some g → g.contains (relStr sourceDir p) = true := by
    intro p hp
    unfold collect_files_recursive at hp
    rw [List.mem_filterMap] at hp
    obtain ⟨⟨q, e⟩, hkv, hf⟩ := hp
    cases e with
    | dir => simp [collectStep] at hf
    | file c =>
      cases git with
      | none =>
        obtain rfl : q = p := by simpa [collectStep] using hf
        exact ⟨⟨c, hwalk _ hkv⟩, by intro g hg; cases hg⟩
      | some g =>
        cases hc : g.contains (relStr sourceDir q) with
        | false => rw [collectStep] at hf; rw [hc] at hf; simp at hf
        | true =>
          rw [collectStep] at hf
          rw [hc] at hf
          obtain rfl : q = p := by simpa using hf
          refine ⟨⟨c, hwalk _ hkv⟩, ?_⟩
          intro g2 hg2
          cases hg2
          exact hc
  refine ⟨fun p hp => (hmain p hp).1, fun g hg p hp => (hmain p hp).2 g hg, ?_⟩
  show ((rglobItems fs directory).take k).filterMap (collectStep sourceDir git)
      <+: (rglobItems fs directory).filterMap (collectStep sourceDir git)
  refine ⟨((rglobItems fs directory).drop k).filterMap (collectStep sourceDir git), ?_⟩
  rw [← List.filterMap_append, List.take_append_drop]

/-- A filesystem whose listing holds two tracked files, a directory and an
untracked file below the scanned directory. -/
def fsC9 : FS := mkFS [(["r", "d"], .dir), (["r", "d", "a.txt"], .file "A"),
  (["r", "d", "sub"], .dir), (["r", "d", "sub", "b.txt"], .file "B"),
  (["r", "d", "c.txt"], .file "C")]

/-- Witness for C9 at a concrete filesystem and tracked set, with the walk
failing after three items. -/
theorem c9_collector_contract_witness :
    (∀ p ∈ collect_files_recursive fsC9 (some 3) ["r", "d"] ["r"] (some ["d/a.txt", "d/sub/b.txt"]),
      ∃ c, (p, Entry.file c) ∈ fsC9.entries)
    ∧ (∀ g, (some ["d/a.txt", "d/sub/b.txt"] : Option (List String)) = some g →
        ∀ p ∈ collect_files_recursive fsC9 (some 3) ["r", "d"] ["r"] (some ["d/a.txt", "d/sub/b.txt"]),
        g.contains (relStr ["r"] p) = true)
    ∧ (collect_files_recursive fsC9 (some 3) ["r", "d"] ["r"] (some ["d/a.txt", "d/sub/b.txt"])
        <+: collect_files_recursive fsC9 none ["r", "d"] ["r"] (some ["d/a.txt", "d/sub/b.txt"])) :=
  c9_collector_contract fsC9 3 ["r", "d"] ["r"] (some ["d/a.txt", "d/sub/b.txt"]) (some 3)

/-- C5: the resolver's output has no duplicates, is sorted in lexicographic
path order, is identical across two calls over the same inputs, and an
empty pattern list yields the empty list. -/
theorem c5_resolver_sorted_nodup (fs : FS) (env : GlobEnv) (sourceDir : PyPath)
    (patterns exclude : List String) (git : Option (List String)) (includeFiles : Bool) :
    (resolve_patterns fs env sourceDir patterns exclude git includeFiles).Nodup
    ∧ List.Sorted (fun a b : PyPath => a ≤ b)
        (resolve_patterns fs env sourceDir patterns exclude git includeFiles)
    ∧ resolve_patterns fs env sourceDir patterns exclude git includeFiles
        = resolve_patterns fs env sourceDir patterns exclude git includeFiles
    ∧ resolve_patterns fs env sourceDir [] exclude git includeFiles = [] := by
  refine ⟨?_, ?_, rfl, by simp [resolve_patterns]⟩
  · unfold resolve_patterns
    exact (List.mergeSort_perm _ pathLe).nodup_iff.mpr (List.nodup_dedup _)
  · unfold resolve_patterns
    have h := @List.sorted_mergeSort PyPath pathLe
      (fun a b c hab hbc => by
        simp only [pathLe, decide_eq_true_eq] at *
        exact le_trans hab hbc)
      (fun a b => by
        simp only [pathLe, Bool.or_eq_true, decide_eq_true_eq]
        exact le_total a b)
      ((patterns.flatMap (resolveOnePattern fs env sourceDir exclude git includeFiles)).dedup)
    exact h.imp (fun hab => by simpa [pathLe] using hab)

/-- Split a boolean conjunction hypothesis. -/
theorem bool_and_split {a b : Bool} (h : (a && b) = true) : a = true ∧ b = true := by
  cases a <;> cases b <;> simp_all

/-- Assemble a boolean conjunction. -/
theorem bool_and_intro {a b : Bool} (h1 : a = true) (h2 : b = true) : (a && b) = true := by
  cases a <;> cases b <;> simp_all

/-- Split a boolean disjunction hypothesis. -/
theorem bool_or_split {a b : Bool} (h : (a || b) = true) : a = true ∨ b = true := by
  cases a <;> cases b <;> simp_all

/-- Assemble a boolean disjunction. -/
theorem bool_or_intro {a b : Bool} (h : a = true ∨ b = true) : (a || b) = true := by
  cases a <;> cases b <;> simp_all

/-- Directory-inclusion rule as the spec words it: some tracked entry equals
the directory's relative path, or starts with that path followed by a
slash. -/
def specDirIncluded (g : List String) (rel : String) : Prop :=
  ∃ t ∈ g, t = rel ∨ strPre (rel ++ "/") t = true

/-- A path is a candidate of one pattern when either the pattern's direct
path exists and passes the type gate (then it is the only candidate that
pattern contributes) or, the direct branch not taken, it is among the
pattern's glob expansion results. -/
def matchesPattern (fs : FS) (env : GlobEnv) (sourceDir : PyPath)
    (includeFiles : Bool) (pattern : String) (p : PyPath) : Prop :=
  if fs.existsP (directPath sourceDir pattern)
      && typeOk fs includeFiles (directPath sourceDir pattern)
  then p = directPath sourceDir pattern
  else p ∈ globCandidates env pattern

/-- C4: a directory candidate surviving the exclude filter is included by
the resolver iff the tracked set has an entry equal to its relative path or
one extending it past a slash; the same predicate gates the directory branch
of reconciliation. -/
theorem c4_directory_inclusion_rule (fs : FS) (env : GlobEnv) (sourceDir tp : PyPath)
    (patterns exclude : List String) (g : List String) (includeFiles dry repl : Bool)
    (p : PyPath)
    (hdir : fs.isDir p = true)
    (hexcl : excludedBy exclude (relStr sourceDir p) = false) :
    (p ∈ resolve_patterns fs env sourceDir patterns exclude (some g) includeFiles
      ↔ ((∃ pat ∈ patterns, matchesPattern fs env sourceDir includeFiles pat p)
          ∧ hasTrackedFiles g (relStr sourceDir p) = true))
    ∧ (hasTrackedFiles g (relStr sourceDir p) = true
        ↔ specDirIncluded g (relStr sourceDir p))
    ∧ ((process_directory_sync fs p tp sourceDir (some g) dry repl).msg = Msg.filteredOutDir
        ↔ hasTrackedFiles g (relStr sourceDir p) = false) := by
  have hlookup : fs.lookup p = some Entry.dir := by
    unfold FS.isDir at hdir
    cases hl : fs.lookup p with
    | none => rw [hl] at hdir; simp at hdir
    | some e => cases e with
      | file c => rw [hl] at hdir; simp at hdir
      | dir => rfl
  have hisfile : fs.isFile p = false := by
    unfold FS.isFile; rw [hlookup]
  have hgitp : gitFilterOk fs (some g) sourceDir p = hasTrackedFiles g (relStr sourceDir p) := by
    unfold gitFilterOk
    rw [hisfile, hdir]
    simp
  have htype : typeOk fs includeFiles p = true := by
    unfold typeOk
    rw [hdir]
    simp
  have honep : ∀ pattern, p ∈ resolveOnePattern fs env sourceDir exclude (some g) includeFiles pattern
      ↔ (matchesPattern fs env sourceDir includeFiles pattern p
          ∧ hasTrackedFiles g (relStr sourceDir p) = true) := by
    intro pattern
    unfold resolveOnePattern matchesPattern
    by_cases hcond : (fs.existsP (directPath sourceDir pattern)
        && typeOk fs includeFiles (directPath sourceDir pattern)) = true
    · rw [if_pos hcond, if_pos hcond]
      by_cases hkeep : (gitFilterOk fs (some g) sourceDir (directPath sourceDir pattern)
          && !(excludedBy exclude (relStr sourceDir (directPath sourceDir pattern)))) = true
      · rw [if_pos hkeep]
        constructor
        · intro hp
          have hpd : p = directPath sourceDir pattern := by simpa using hp
          subst hpd
          exact ⟨rfl, by rw [← hgitp]; exact (bool_and_split hkeep).1⟩
        · rintro ⟨hpd, -⟩
          subst hpd
          simp
      · rw [if_neg hkeep]
        constructor
        · intro hp; simp at hp
        · rintro ⟨hpd, hht⟩
          subst hpd
          exact absurd (bool_and_intro (by rw [hgitp]; exact hht)
            (by rw [hexcl]; rfl)) hkeep
    · rw [if_neg hcond, if_neg hcond]
      rw [List.mem_filter]
      unfold candidateKept
      constructor
      · rintro ⟨hmem, hkept⟩
        refine ⟨hmem, ?_⟩
        have := (bool_and_split (bool_and_split hkept).1).2
        rw [← hgitp]; exact this
      · rintro ⟨hmem, hht⟩
        refine ⟨hmem, ?_⟩
        exact bool_and_intro (bool_and_intro htype (by rw [hgitp]; exact hht))
          (by rw [hexcl]; rfl)
  refine ⟨?_, ?_, ?_⟩
  · unfold resolve_patterns
    rw [(List.mergeSort_perm _ pathLe).mem_iff, List.mem_dedup, List.mem_flatMap]
    constructor
    · rintro ⟨pat, hpat, hp⟩
      obtain ⟨hm, hht⟩ := (honep pat).mp hp
      exact ⟨⟨pat, hpat, hm⟩, hht⟩
    · rintro ⟨⟨pat, hpat, hm⟩, hht⟩
      exact ⟨pat, hpat, (honep pat).mpr ⟨hm, hht⟩⟩
  · unfold hasTrackedFiles specDirIncluded
    rw [List.any_eq_true]
    constructor
    · rintro ⟨t, ht, hor⟩
      rcases bool_or_split hor with h1 | h2
      · exact ⟨t, ht, Or.inr h1⟩
      · exact ⟨t, ht, Or.inl (by simpa using h2)⟩
    · rintro ⟨t, ht, h⟩
      refine ⟨t, ht, bool_or_intro ?_⟩
      rcases h with h | h
      · exact Or.inr (by simpa using h)
      · exact Or.inl h
  · unfold process_directory_sync
    cases hht : hasTrackedFiles g (relStr sourceDir p) with
    | false => simp [hht, dirGitFiltered]
    | true =>
      simp [hht, dirGitFiltered]
      split <;> (try split) <;> (try split) <;> (try split) <;> (try split) <;> simp

/-- A concrete filesystem for the resolver witness: a monorepo with two
library directories, one of which holds a tracked file. -/
def fsC4 : FS := mkFS [(["r"], .dir), (["r", "libs"], .dir),
  (["r", "libs", "admin"], .dir), (["r", "libs", "admin", "test.py"], .file "t"),
  (["r", "libs", "auth"], .dir)]

/-- A concrete glob oracle resolving the pattern of the C4 witness. -/
def envC4 : GlobEnv :=
  { glob := fun pat => if pat == "libs/*" then [["r", "libs", "admin"], ["r", "libs", "auth"]] else [],
    globRecursive := fun _ => [] }

/-- Witness for C4 at a concrete filesystem, glob oracle and tracked set. -/
theorem c4_directory_inclusion_rule_witness :
    fsC4.isDir ["r", "libs", "admin"] = true
    ∧ excludedBy [] (relStr ["r"] ["r", "libs", "admin"]) = false
    ∧ ((["r", "libs", "admin"] : PyPath) ∈
        resolve_patterns fsC4 envC4 ["r"] ["libs/*"] [] (some ["libs/admin/test.py"]) false
      ↔ ((∃ pat ∈ ["libs/*"], matchesPattern fsC4 envC4 ["r"] false pat ["r", "libs", "admin"])
          ∧ hasTrackedFiles ["libs/admin/test.py"] (relStr ["r"] ["r", "libs", "admin"]) = true))
    ∧ (hasTrackedFiles ["libs/admin/test.py"] (relStr ["r"] ["r", "libs", "admin"]) = true
        ↔ specDirIncluded ["libs/admin/test.py"] (relStr ["r"] ["r", "libs", "admin"]))
    ∧ ((process_directory_sync fsC4 ["r", "libs", "admin"] ["t", "admin"] ["r"]
          (some ["libs/admin/test.py"]) false false).msg = Msg.filteredOutDir
        ↔ hasTrackedFiles ["libs/admin/test.py"] (relStr ["r"] ["r", "libs", "admin"]) = false) :=
  ⟨by decide, by decide,
    c4_directory_inclusion_rule fsC4 envC4 ["r"] ["t", "admin"] ["libs/*"] []
      ["libs/admin/test.py"] false false false ["r", "libs", "admin"] (by decide) (by decide)⟩

/-- A boolean list prefix can be peeled back off with drop. -/
theorem isPre_append_drop {l1 l2 : PyPath} (h : l1.isPrefixOf l2 = true) :
    l1 ++ l2.drop l1.length = l2 := by
  obtain ⟨t, ht⟩ := List.isPrefixOf_iff_prefix.mp h
  subst ht
  rw [List.drop_left]

/-- C10: with `dry = False`, `sync_directory` removes the whole existing
target tree before copying — although it takes no replace option — and with
`reverse = True` the same applies to the swapped destination, the original
source argument. -/
theorem c10_sync_directory_unconditional_delete (fs : FS) (source target : PyPath)
    (git : Option (List String)) (dry : Bool)
    (hex : fs.existsP target = true)
    (hrm : fs.rmtreeFails target = false)
    (hct : fs.copytreeFails target = false) :
    (∃ fs', sync_directory fs source target false false git
        = some (fs', [Ev.rmtree target, Ev.copytree source target])
      ∧ ∀ p e, (p, e) ∈ fs'.entries → target.isPrefixOf p = true →
          (p = target ∧ e = Entry.dir)
          ∨ ∃ rest, rest ≠ ([] : PyPath) ∧ p = target ++ rest
              ∧ (source ++ rest, e) ∈ fs.entries)
    ∧ sync_directory fs source target true dry git
        = sync_directory fs target source false dry git := by
  constructor
  · refine ⟨copytreeFS (fs.removeTree target) source target
      (syncDirIgnore (fs.removeTree target) git source), ?_, ?_⟩
    · simp [sync_directory, FS.removeTree, hex, hrm, hct]
    · intro p e hpe hpre
      unfold copytreeFS at hpe
      rw [List.mem_append] at hpe
      rcases hpe with hcopy | hold
      · rw [List.mem_filterMap] at hcopy
        obtain ⟨⟨rest, e2⟩, hre, hif⟩ := hcopy
        by_cases hall : ((List.range rest.length).all
            (fun i => !(syncDirIgnore (fs.removeTree target) git source
              (source ++ rest.take (i + 1))))) = true
        · rw [if_pos hall] at hif
          have hinj := Option.some.inj hif
          have hp : target ++ rest = p := congrArg Prod.fst hinj
          have he : e2 = e := congrArg Prod.snd hinj
          unfold subtreeRests at hre
          rw [List.mem_filterMap] at hre
          obtain ⟨kv, hkv, hkvif⟩ := hre
          by_cases hpref : (source.isPrefixOf kv.1 && decide (source.length < kv.1.length)) = true
          · rw [if_pos hpref] at hkvif
            have hinj2 := Option.some.inj hkvif
            have hr : kv.1.drop source.length = rest := congrArg Prod.fst hinj2
            have he2 : kv.2 = e2 := congrArg Prod.snd hinj2
            obtain ⟨hpref1, hlen⟩ := bool_and_split hpref
            right
            refine ⟨rest, ?_, hp.symm, ?_⟩
            · rw [← hr]
              apply List.ne_nil_of_length_pos
              rw [List.length_drop]
              have := of_decide_eq_true hlen
              omega
            · have hsrc : source ++ rest = kv.1 := by
                rw [← hr]; exact isPre_append_drop hpref1
              rw [hsrc, ← he, ← he2]
              exact List.mem_of_mem_filter hkv
          · rw [if_neg hpref] at hkvif; cases hkvif
        · rw [if_neg hall] at hif; cases hif
      · unfold FS.setEntry at hold
        rw [List.mem_cons] at hold
        rcases hold with heq | hmem
        · left
          exact ⟨congrArg Prod.fst heq, congrArg Prod.snd heq⟩
        · exfalso
          have h1 := List.mem_of_mem_filter hmem
        -- h1 is membership in the removeTree entries, which exclude the target subtree
          unfold FS.removeTree at h1
          rw [List.mem_filter] at h1
          have h2 := h1.2
          rw [hpre] at h2
          simp at h2
  · rfl

/-- A concrete world for C10: a source with one file and a target holding a
stale file. -/
def fsC10 : FS := mkFS [(["s"], .dir), (["s", "f.txt"], .file "new"),
  (["t"], .dir), (["t", "old.txt"], .file "stale")]

/-- Witness for C10 on the concrete world. -/
theorem c10_sync_directory_unconditional_delete_witness :
    fsC10.existsP ["t"] = true ∧ fsC10.rmtreeFails ["t"] = false
    ∧ fsC10.copytreeFails ["t"] = false
    ∧ ((∃ fs', sync_directory fsC10 ["s"] ["t"] false false none
        = some (fs', [Ev.rmtree ["t"], Ev.copytree ["s"] ["t"]])
      ∧ ∀ p e, (p, e) ∈ fs'.entries → (["t"] : PyPath).isPrefixOf p = true →
          (p = ["t"] ∧ e = Entry.dir)
          ∨ ∃ rest, rest ≠ ([] : PyPath) ∧ p = ["t"] ++ rest
              ∧ ((["s"] : PyPath) ++ rest, e) ∈ fsC10.entries)
    ∧ sync_directory fsC10 ["s"] ["t"] true false none
        = sync_directory fsC10 ["t"] ["s"] false false none) :=
  ⟨by decide, by decide, by decide,
    c10_sync_directory_unconditional_delete fsC10 ["s"] ["t"] none false
      (by decide) (by decide) (by decide)⟩

/-- A concrete successful git environment with messy output lines. -/
def gitEnvC6 : GitEnv :=
  { revParse := some (0, "true"), lsFiles := some (0, "a.txt\n  b.txt \n\nc/d.txt\n") }

/-- Witness for C6: concrete evaluation of the provider's success path. -/
theorem c6_git_provider_contract_witness :
    get_git_tracked_files gitEnvC6 = some ["a.txt", "b.txt", "c/d.txt"]
    ∧ (gitEnvC6.revParse = none → get_git_tracked_files gitEnvC6 = none)
    ∧ (∀ out, gitEnvC6.revParse = some (0, out) → gitEnvC6.lsFiles = none →
        get_git_tracked_files gitEnvC6 = none) :=
  ⟨by decide, (c6_git_provider_contract gitEnvC6).1,
    (c6_git_provider_contract gitEnvC6).2.2.1⟩

/-- Filtering out another key's entries does not change a key's first
match. -/
theorem find?_filter_other_key (sp q : PyPath) (hne : ¬(q = sp)) :
    ∀ l : List (PyPath × Entry),
      (l.filter (fun kv => !(kv.1 == q))).find? (fun kv => kv.1 == sp)
        = l.find? (fun kv => kv.1 == sp)
  | [] => rfl
  | kv :: l => by
    by_cases hsp : (kv.1 == sp) = true <;> by_cases hkq : (kv.1 == q) = true
    · have h1 : kv.1 = sp := by simpa using hsp
      have h2 : kv.1 = q := by simpa using hkq
      exact absurd (h2 ▸ h1) hne
    · simp [List.filter_cons, List.find?_cons, hsp, hkq]
    · simp [List.filter_cons, List.find?_cons, hsp, hkq,
        find?_filter_other_key sp q hne l]
    · simp [List.filter_cons, List.find?_cons, hsp, hkq,
        find?_filter_other_key sp q hne l]

/-- Writing one path leaves lookups at any other path unchanged. -/
theorem setEntry_lookup_other (fs : FS) (q sp : PyPath) (e : Entry) (hne : ¬(q = sp)) :
    (fs.setEntry q e).lookup sp = fs.lookup sp := by
  unfold FS.setEntry FS.lookup
  rw [List.find?_cons_of_neg _ (by simpa using hne), find?_filter_other_key sp q hne]

/-- A freshly written path exists. -/
theorem setEntry_existsP (fs : FS) (p : PyPath) (e : Entry) :
    (fs.setEntry p e).existsP p = true := by
  unfold FS.existsP FS.lookup FS.setEntry
  rw [List.find?_cons_of_pos _ (by simp)]
  rfl

/-- Creating missing ancestor directories leaves the lookup of any existing
path unchanged. -/
theorem mkdirAncestors_lookup (fs : FS) (tp sp : PyPath)
    (hsp : (fs.lookup sp).isSome = true) :
    (fs.mkdirAncestors tp).lookup sp = fs.lookup sp := by
  unfold FS.mkdirAncestors
  generalize properAncestors tp = qs
  induction qs generalizing fs with
  | nil => rfl
  | cons q qs ih =>
    simp only [List.foldl_cons]
    by_cases hq : fs.existsP q = true
    · rw [if_pos hq]
      exact ih fs hsp
    · rw [if_neg hq]
      have hne : ¬(q = sp) := by
        intro heq
        subst heq
        exact hq hsp
      have hpres := setEntry_lookup_other fs q sp Entry.dir hne
      rw [ih (fs.setEntry q Entry.dir) (by rw [hpres]; exact hsp), hpres]

/-- A world where the source file exists and the target does not. -/
def fsC8 : FS := mkFS [(["r"], .dir), (["r", "a.txt"], .file "new"), (["t"], .dir)]

/-- C8 counterexample: copying to a previously non-existent target with
`replace_existing = True` reports "replaced", not "copied" — the success
message checks the target's existence only after the copy, when it always
exists. -/
theorem c8_message_vs_branch_cex :
    fsC8.existsP ["t", "a.txt"] = false
    ∧ (process_file_sync fsC8 ["r", "a.txt"] ["t", "a.txt"] ["r"] none false true).processed = true
    ∧ (process_file_sync fsC8 ["r", "a.txt"] ["t", "a.txt"] ["r"] none false true).msg = Msg.replaced := by
  exact ⟨by decide, by decide, by decide⟩

/-- The successful non-dry copy branch of `process_file_sync`, computed in
closed form: the success message depends only on the replace flag. -/
theorem process_file_sync_copy_success (fs : FS) (sp tp sd : PyPath)
    (git : Option (List String)) (repl : Bool)
    (hgit : fileGitPass git (relStr sd sp) = true)
    (hskip : (fs.existsP tp && !repl) = false)
    (hmk : fs.mkdirFails tp.dropLast = false)
    (c : String) (hsrc : fs.lookup sp = some (Entry.file c))
    (hcp : (fs.mkdirAncestors tp).copyFails tp = false) :
    process_file_sync fs sp tp sd git false repl
      = ⟨true, if repl = true then Msg.replaced else Msg.copied,
          (fs.mkdirAncestors tp).setEntry tp (Entry.file c),
          [Ev.mkdirAncestors tp, Ev.copyFile sp tp]⟩ := by
  have h1 : fileGitFiltered git (relStr sd sp) = false := by
    cases git with
    | none => rfl
    | some g =>
      have hc : g.contains (relStr sd sp) = true := hgit
      simp only [fileGitFiltered]
      simpa using hc
  have hsrc1 : (fs.mkdirAncestors tp).lookup sp = some (Entry.file c) := by
    rw [mkdirAncestors_lookup fs tp sp (by rw [hsrc]; rfl)]
    exact hsrc
  simp only [process_file_sync, h1, Bool.false_eq_true, if_false, hskip, Bool.and_false,
    hmk, hsrc1, hcp, setEntry_existsP, Bool.true_and]
  cases repl <;> rfl

/-- C8 amended: whenever a non-dry file copy succeeds, the message is
"replaced" exactly when `replace_existing` is set — regardless of whether
the target existed before the call — and "copied" exactly when it is not. -/
theorem c8_message_tracks_replace_flag (fs : FS) (sp tp sd : PyPath)
    (git : Option (List String)) (repl : Bool)
    (hgit : fileGitPass git (relStr sd sp) = true)
    (hskip : (fs.existsP tp && !repl) = false)
    (hmk : fs.mkdirFails tp.dropLast = false)
    (c : String) (hsrc : fs.lookup sp = some (Entry.file c))
    (hcp : (fs.mkdirAncestors tp).copyFails tp = false) :
    (process_file_sync fs sp tp sd git false repl).processed = true
    ∧ ((process_file_sync fs sp tp sd git false repl).msg = Msg.replaced ↔ repl = true)
    ∧ ((process_file_sync fs sp tp sd git false repl).msg = Msg.copied ↔ repl = false) := by
  rw [process_file_sync_copy_success fs sp tp sd git repl hgit hskip hmk c hsrc hcp]
  cases repl <;> simp

/-- Witness for C8's amended message rule: a successful replace-mode copy
onto a fresh target reports "replaced". -/
theorem c8_message_tracks_replace_flag_witness :
    fileGitPass none (relStr ["r"] ["r", "a.txt"]) = true
    ∧ (fsC2.existsP ["t", "a.txt"] && !true) = false
    ∧ fsC2.mkdirFails (["t", "a.txt"] : PyPath).dropLast = false
    ∧ fsC2.lookup ["r", "a.txt"] = some (Entry.file "X")
    ∧ (fsC2.mkdirAncestors ["t", "a.txt"]).copyFails ["t", "a.txt"] = false
    ∧ ((process_file_sync fsC2 ["r", "a.txt"] ["t", "a.txt"] ["r"] none false true).processed = true
      ∧ ((process_file_sync fsC2 ["r", "a.txt"] ["t", "a.txt"] ["r"] none false true).msg
          = Msg.replaced ↔ true = true)
      ∧ ((process_file_sync fsC2 ["r", "a.txt"] ["t", "a.txt"] ["r"] none false true).msg
          = Msg.copied ↔ true = false)) :=
  ⟨by decide, by decide, by decide, by decide, by decide,
    c8_message_tracks_replace_flag fsC2 ["r", "a.txt"] ["t", "a.txt"] ["r"] none true
      (by decide) (by decide) (by decide) "X" (by decide) (by decide)⟩

/-- Filtered is the complement of passing the file gate. -/
theorem fileGitFiltered_not_pass (git : Option (List String)) (rel : String) :
    fileGitFiltered git rel = !(fileGitPass git rel) := by
  cases git <;> rfl

/-- Dry-run `process_file_sync` never reaches the copy step: its processed
flag is the negation of the two skip conditions. -/
theorem process_file_sync_dry_processed (fs : FS) (sp tp sd : PyPath)
    (git : Option (List String)) (repl : Bool) :
    (process_file_sync fs sp tp sd git true repl).processed
      = !(fileGitFiltered git (relStr sd sp) || (fs.existsP tp && !repl)) := by
  unfold process_file_sync
  by_cases h1 : fileGitFiltered git (relStr sd sp) = true
  · simp [h1]
  · have h1f : fileGitFiltered git (relStr sd sp) = false := by simpa using h1
    by_cases h2 : (fs.existsP tp && !repl) = true
    · simp only [h1f, h2, Bool.false_eq_true, if_false, if_true, Bool.false_or]
      split <;> rfl
    · have h2f : (fs.existsP tp && !repl) = false := by simpa using h2
      simp only [h1f, h2f, Bool.false_eq_true, if_false, Bool.false_or]
      split <;> rfl

/-- Whenever either skip condition holds, `process_file_sync` reports the
path unprocessed, dry or not. -/
theorem process_file_sync_skip_processed (fs : FS) (sp tp sd : PyPath)
    (git : Option (List String)) (dry repl : Bool)
    (h : (fileGitFiltered git (relStr sd sp) || (fs.existsP tp && !repl)) = true) :
    (process_file_sync fs sp tp sd git dry repl).processed = false := by
  unfold process_file_sync
  rcases bool_or_split h with h1 | h2
  · simp [h1]
  · by_cases h1 : fileGitFiltered git (relStr sd sp) = true
    · simp [h1]
    · have h1f : fileGitFiltered git (relStr sd sp) = false := by simpa using h1
      simp only [h1f, h2, Bool.false_eq_true, if_false, if_true]
      split <;> rfl

/-- Dry-run `process_directory_sync` reports processed exactly when the
directory passes the tracked-set gate. -/
theorem process_directory_sync_dry_processed (fs : FS) (sp tp sd : PyPath)
    (git : Option (List String)) (repl : Bool) :
    (process_directory_sync fs sp tp sd git true repl).processed
      = !(dirGitFiltered git (relStr sd sp)) := by
  unfold process_directory_sync
  by_cases h1 : dirGitFiltered git (relStr sd sp) = true
  · simp [h1]
  · have h1f : dirGitFiltered git (relStr sd sp) = false := by simpa using h1
    simp [h1f]

/-- A gate-filtered directory is unprocessed, dry or not. -/
theorem process_directory_sync_skip_processed (fs : FS) (sp tp sd : PyPath)
    (git : Option (List String)) (dry repl : Bool)
    (h : dirGitFiltered git (relStr sd sp) = true) :
    (process_directory_sync fs sp tp sd git dry repl).processed = false := by
  unfold process_directory_sync
  simp [h]

/-- A dry `process_file_sync` run changes nothing. -/
theorem process_file_sync_dry_frame (fs : FS) (sp tp sd : PyPath)
    (git : Option (List String)) (repl : Bool) :
    (process_file_sync fs sp tp sd git true repl).fs = fs
    ∧ (process_file_sync fs sp tp sd git true repl).evs = [] := by
  unfold process_file_sync
  refine ⟨?_, ?_⟩ <;>
  · by_cases h1 : fileGitFiltered git (relStr sd sp) = true
    · simp [h1]
    · have h1f : fileGitFiltered git (relStr sd sp) = false := by simpa using h1
      simp only [h1f, Bool.false_eq_true, if_false]
      by_cases h2 : (fs.existsP tp && !repl) = true
      · simp only [h2]
        rw [if_pos (by trivial)]
        split <;> rfl
      · have h2f : (fs.existsP tp && !repl) = false := by simpa using h2
        simp only [h2f, Bool.false_eq_true, if_false]
        split <;> rfl

/-- A dry `process_directory_sync` run changes nothing. -/
theorem process_directory_sync_dry_frame (fs : FS) (sp tp sd : PyPath)
    (git : Option (List String)) (repl : Bool) :
    (process_directory_sync fs sp tp sd git true repl).fs = fs
    ∧ (process_directory_sync fs sp tp sd git true repl).evs = [] := by
  unfold process_directory_sync
  refine ⟨?_, ?_⟩ <;>
  · by_cases h1 : dirGitFiltered git (relStr sd sp) = true
    · simp [h1]
    · have h1f : dirGitFiltered git (relStr sd sp) = false := by simpa using h1
      simp only [h1f, Bool.false_eq_true, if_false]
      rw [if_pos (by trivial)]

/-- A world where the source is a directory and the target directory already
exists. -/
def fsC3 : FS := mkFS [(["r"], .dir), (["r", "d"], .dir), (["r", "d", "f.txt"], .file "x"),
  (["t"], .dir), (["t", "d"], .dir)]

/-- C3 counterexample: for a directory whose target already exists without
`replace_existing`, the dry run reports processed while the real run fails
(copytree refuses the existing destination) and reports unprocessed. -/
theorem c3_dryrun_processed_mismatch_cex :
    (process_path fsC3 ["r", "d"] ["t", "d"] ["r"] none true false).processed = true
    ∧ (process_path fsC3 ["r", "d"] ["t", "d"] ["r"] none false false).processed = false := by
  exact ⟨by decide, by decide⟩

/-- C3 amended: a dry run mutates nothing and over-approximates — every path
the non-dry run reports processed is reported processed by the dry run (the
converse can fail when the non-dry run errors); `sync_directory` under dry
also changes nothing. -/
theorem c3_dryrun_purity (fs : FS) (sp tp sd s t : PyPath)
    (git : Option (List String)) (repl rev : Bool) :
    (process_path fs sp tp sd git true repl).fs = fs
    ∧ (process_path fs sp tp sd git true repl).evs = []
    ∧ ((process_path fs sp tp sd git false repl).processed = true →
        (process_path fs sp tp sd git true repl).processed = true)
    ∧ sync_directory fs s t rev true git = some (fs, []) := by
  refine ⟨?_, ?_, ?_, rfl⟩
  · unfold process_path
    split
    · exact (process_file_sync_dry_frame fs sp tp sd git repl).1
    · split
      · exact (process_directory_sync_dry_frame fs sp tp sd git repl).1
      · rfl
  · unfold process_path
    split
    · exact (process_file_sync_dry_frame fs sp tp sd git repl).2
    · split
      · exact (process_directory_sync_dry_frame fs sp tp sd git repl).2
      · rfl
  · intro hnd
    unfold process_path at hnd ⊢
    by_cases hf : fs.isFile sp = true
    · rw [if_pos hf] at hnd ⊢
      by_cases hc : (fileGitFiltered git (relStr sd sp) || (fs.existsP tp && !repl)) = true
      · rw [process_file_sync_skip_processed fs sp tp sd git false repl hc] at hnd
        exact absurd hnd (by simp)
      · rw [Bool.not_eq_true] at hc
        rw [process_file_sync_dry_processed, hc]
        rfl
    · rw [if_neg hf] at hnd ⊢
      by_cases hd : fs.isDir sp = true
      · rw [if_pos hd] at hnd ⊢
        by_cases hc : dirGitFiltered git (relStr sd sp) = true
        · rw [process_directory_sync_skip_processed fs sp tp sd git false repl hc] at hnd
          exact absurd hnd (by simp)
        · rw [Bool.not_eq_true] at hc
          rw [process_directory_sync_dry_processed, hc]
          rfl
      · rw [if_neg hd] at hnd
        simp at hnd

/-- Witness for C3's amended dry-run property at a concrete world. -/
theorem c3_dryrun_purity_witness :
    (process_path fsC3 ["r", "d"] ["t", "d"] ["r"] none true true).fs = fsC3
    ∧ (process_path fsC3 ["r", "d"] ["t", "d"] ["r"] none true true).evs = []
    ∧ ((process_path fsC3 ["r", "d"] ["t", "d"] ["r"] none false true).processed = true →
        (process_path fsC3 ["r", "d"] ["t", "d"] ["r"] none true true).processed = true)
    ∧ sync_directory fsC3 ["r", "d"] ["t", "d"] false true none = some (fsC3, []) :=
  c3_dryrun_purity fsC3 ["r", "d"] ["t", "d"] ["r"] ["r", "d"] ["t", "d"] none true false

/-- A world whose source and target files hold identical bytes. -/
def fsC1 : FS := mkFS [(["r"], .dir), (["r", "a.txt"], .file "X"),
  (["t"], .dir), (["t", "a.txt"], .file "X")]

/-- C1 counterexample: with identical content and `replace_existing = True`,
core's `process_file_sync` does not skip — it performs the copy and reports
the path processed with the "replaced" message. -/
theorem c1_identical_content_cex :
    is_same_file_content fsC1 ["r", "a.txt"] ["t", "a.txt"] = true
    ∧ (process_file_sync fsC1 ["r", "a.txt"] ["t", "a.txt"] ["r"] none false true).processed = true
    ∧ (process_file_sync fsC1 ["r", "a.txt"] ["t", "a.txt"] ["r"] none false true).msg = Msg.replaced
    ∧ (process_file_sync fsC1 ["r", "a.txt"] ["t", "a.txt"] ["r"] none false true).evs
        = [Ev.mkdirAncestors ["t", "a.txt"], Ev.copyFile ["r", "a.txt"] ["t", "a.txt"]] := by
  exact ⟨by decide, by decide, by decide, by decide⟩

/-- C1 amended: identical content wins only when `replace_existing = False`
(core skips with "same - skipped" and mutates nothing); with
`replace_existing = True` and `dry = False` the identical target is
nevertheless rewritten and reported "replaced"; the cli variant
`process_path`, whose checksum check precedes its replace branch, does skip
identical content even under replace. -/
theorem c1_identical_content_tiebreak (fs : FS) (sp tp sd : PyPath)
    (git : Option (List String)) (dry : Bool)
    (hgit : fileGitPass git (relStr sd sp) = true)
    (hex : fs.existsP tp = true)
    (hsame : is_same_file_content fs sp tp = true) :
    process_file_sync fs sp tp sd git dry false = ⟨false, Msg.sameSkipped, fs, []⟩
    ∧ (∀ c, fs.lookup sp = some (Entry.file c) →
        fs.mkdirFails tp.dropLast = false →
        (fs.mkdirAncestors tp).copyFails tp = false →
        process_file_sync fs sp tp sd git false true
          = ⟨true, Msg.replaced, (fs.mkdirAncestors tp).setEntry tp (Entry.file c),
              [Ev.mkdirAncestors tp, Ev.copyFile sp tp]⟩)
    ∧ (∀ csp ctp, fs.lookup sp = some (Entry.file csp) →
        fs.lookup tp = some (Entry.file ctp) →
        fs.hash csp ≠ "" →
        ∀ repl dry2, cli_process_path fs sp tp sd git dry2 repl = some (false, fs, [])) := by
  have h1 : fileGitFiltered git (relStr sd sp) = false := by
    rw [fileGitFiltered_not_pass, hgit]
    rfl
  refine ⟨?_, ?_, ?_⟩
  · simp [process_file_sync, h1, hex, hsame]
  · intro c hs hm hcp2
    rw [process_file_sync_copy_success fs sp tp sd git true hgit (by simp) hm c hs hcp2]
    rfl
  · intro csp ctp hsp htp hne repl dry2
    have hisf : fs.isFile sp = true := by
      unfold FS.isFile
      rw [hsp]
    have hist : fs.isFile tp = true := by
      unfold FS.isFile
      rw [htp]
    have hexsp : fs.existsP sp = true := by
      unfold FS.existsP
      rw [hsp]
      rfl
    cases hrs : fs.readFails sp with
    | true =>
      exfalso
      have hnone : get_file_checksum fs sp = none := by
        unfold get_file_checksum
        rw [hsp, hrs]
        rfl
      unfold is_same_file_content at hsame
      rw [hnone] at hsame
      simp at hsame
    | false =>
    cases hrt : fs.readFails tp with
    | true =>
      exfalso
      have hnone : get_file_checksum fs tp = none := by
        unfold get_file_checksum
        rw [htp, hrt]
        rfl
      unfold is_same_file_content at hsame
      rw [hnone] at hsame
      simp at hsame
    | false =>
    have hchk : fs.hash csp = fs.hash ctp := by
      unfold is_same_file_content get_file_checksum at hsame
      rw [hsp, htp, hrs, hrt] at hsame
      simp [FS.existsP, hsp, htp] at hsame
      exact hsame
    have hb1 : (fs.hash csp == "") = false := by simpa using hne
    have hb2 : (fs.hash ctp == "") = false := by rw [← hchk]; exact hb1
    have hb3 : (fs.hash csp == fs.hash ctp) = true := by simpa using hchk
    have hcs : cli_get_file_checksum fs sp = fs.hash csp := by
      unfold cli_get_file_checksum
      rw [hsp, hrs]
      rfl
    have hct2 : cli_get_file_checksum fs tp = fs.hash ctp := by
      unfold cli_get_file_checksum
      rw [htp, hrt]
      rfl
    cases git with
    | none =>
      simp [cli_process_path, hisf, hist, hex, hcs, hct2, hb1, hb2, hb3]
    | some g =>
      have hcont : g.contains (relStr sd sp) = true := hgit
      simp [cli_process_path, hisf, hist, hex, hcs, hct2, hb1, hb2, hb3, hcont]

/-- Witness for C1's amended tie-break rule at a concrete world. -/
theorem c1_identical_content_tiebreak_witness :
    fileGitPass none (relStr ["r"] ["r", "a.txt"]) = true
    ∧ fsC1.existsP ["t", "a.txt"] = true
    ∧ is_same_file_content fsC1 ["r", "a.txt"] ["t", "a.txt"] = true
    ∧ (process_file_sync fsC1 ["r", "a.txt"] ["t", "a.txt"] ["r"] none false false
        = ⟨false, Msg.sameSkipped, fsC1, []⟩
      ∧ (∀ c, fsC1.lookup ["r", "a.txt"] = some (Entry.file c) →
          fsC1.mkdirFails (["t", "a.txt"] : PyPath).dropLast = false →
          (fsC1.mkdirAncestors ["t", "a.txt"]).copyFails ["t", "a.txt"] = false →
          process_file_sync fsC1 ["r", "a.txt"] ["t", "a.txt"] ["r"] none false true
            = ⟨true, Msg.replaced,
                (fsC1.mkdirAncestors ["t", "a.txt"]).setEntry ["t", "a.txt"] (Entry.file c),
                [Ev.mkdirAncestors ["t", "a.txt"], Ev.copyFile ["r", "a.txt"] ["t", "a.txt"]]⟩)
      ∧ (∀ csp ctp, fsC1.lookup ["r", "a.txt"] = some (Entry.file csp) →
          fsC1.lookup ["t", "a.txt"] = some (Entry.file ctp) →
          fsC1.hash csp ≠ "" →
          ∀ repl dry2, cli_process_path fsC1 ["r", "a.txt"] ["t", "a.txt"] ["r"] none dry2 repl
            = some (false, fsC1, []))) :=
  ⟨by decide, by decide, by decide,
    c1_identical_content_tiebreak fsC1 ["r", "a.txt"] ["t", "a.txt"] ["r"] none false
      (by decide) (by decide) (by decide)⟩

end Arboribus
